import Mathlib

/-!
Shallow embedding of the generic API Gateway handler pipeline of the routing
API (the Injector and APIGLambdaHandler classes) and of the route graph
assembly performed by the quote handler, together with theorems about the
request lifecycle and the response graph construction.
-/

/-- A JSON value, as produced by JSON.parse and consumed by JSON.stringify. -/
inductive Value where
  | null : Value
  | bool : Bool → Value
  | num : Int → Value
  | str : String → Value
  | arr : List Value → Value
  | obj : List (String × Value) → Value

/-- Field lookup in a JSON object, first binding wins. -/
def lookupField (fields : List (String × Value)) (k : String) : Option Value :=
  (fields.find? (fun kv => kv.1 == k)).map (fun kv => kv.2)

/-- One declared key of a Joi object schema: whether the key is required, and
the predicate its value must satisfy.  Per-field validators are abstracted as
a boolean check, which is all the pipeline observes of them. -/
structure FieldSpec where
  required : Bool
  check : Value → Bool

/-- Model of a Joi.ObjectSchema: the declared keys. -/
structure ObjectSchema where
  keys : List (String × FieldSpec)

/-- Whether a key is declared by the schema. -/
def declares (s : ObjectSchema) (k : String) : Bool :=
  s.keys.any (fun kf => kf.1 == k)

/-- The Joi validation options the pipeline passes to validate. -/
structure ValidationOptions where
  allowUnknown : Bool
  stripUnknown : Bool

/-- Options of requestBodySchema validation in parseAndValidateRequest. -/
def requestValidationOptions : ValidationOptions :=
  { allowUnknown := true, stripUnknown := true }

/-- Options of responseBodySchema validation in parseAndValidateResponse. -/
def responseValidationOptions : ValidationOptions :=
  { allowUnknown := true, stripUnknown := true }

/-- First validation error over the declared keys (Joi abortEarly default). -/
def checkFields (fields : List (String × Value)) :
    List (String × FieldSpec) → Option String
  | [] => none
  | (k, fs) :: rest =>
    match lookupField fields k with
    | none =>
      if fs.required then some ("\"" ++ k ++ "\" is required")
      else checkFields fields rest
    | some v =>
      if fs.check v then checkFields fields rest
      else some ("\"" ++ k ++ "\" is invalid")

/-- Joi object-schema validation: declared keys are checked; unknown keys are
stripped from the result when stripUnknown is set, kept when allowUnknown is
set, and otherwise rejected. -/
def joiValidate (s : ObjectSchema) (opts : ValidationOptions) (v : Value) :
    Except String Value :=
  match v with
  | Value.obj fields =>
    match checkFields fields s.keys with
    | some msg => Except.error msg
    | none =>
      if opts.stripUnknown then
        Except.ok (Value.obj (fields.filter (fun kv => declares s kv.1)))
      else if opts.allowUnknown then
        Except.ok (Value.obj fields)
      else
        match fields.find? (fun kv => !(declares s kv.1)) with
        | some kv => Except.error ("\"" ++ kv.1 ++ "\" is not allowed")
        | none => Except.ok (Value.obj fields)
  | _ => Except.error "\"value\" must be of type object"

/-- The body of an APIGatewayProxyResult: either a raw string, as in the 422
and request validation responses, or the JSON.stringify of a value. -/
inductive Body where
  | str : String → Body
  | json : Value → Body

/-- Model of APIGatewayProxyResult. -/
structure APIGResult where
  statusCode : Nat
  body : Body

/-- The fixed INTERNAL_ERROR response constant of the handler module. -/
def INTERNAL_ERROR : APIGResult :=
  { statusCode := 500
    body := Body.json (Value.obj
      [("errorCode", Value.str "INTERNAL_ERROR"),
       ("detail", Value.str "Unexpected error.")]) }

/-- A runtime value of the untagged union of the Response and ErrorResponse
types: a status code plus whichever of the fields body, errorCode and detail
the business logic populated. -/
structure HandleResult where
  statusCode : Nat
  body : Option Value
  errorCode : Option String
  detail : Option String

/-- The isError discrimination of APIGLambdaHandler. -/
def isError (result : HandleResult) : Bool :=
  result.statusCode != 200 && result.statusCode != 202

/-- One field of a JSON.stringify object literal: a field holding undefined
is omitted from the output. -/
def optField (k : String) (o : Option String) : List (String × Value) :=
  match o with
  | some s => [(k, Value.str s)]
  | none => []

/-- JSON.stringify of the object literal with fields detail and errorCode
built in the error branch of the handler. -/
def jsErrorStringify (r : HandleResult) : Value :=
  Value.obj (optField "detail" r.detail ++ optField "errorCode" r.errorCode)

/-- APIGLambdaHandler.parseAndValidateRequest.  JSON.parse belongs to the JS
runtime and is passed in as parseJson; a parse throw is the none case.  The
inl case is the invalid errorResponse, the inr case the valid request. -/
def parseAndValidateRequest (parseJson : String → Option Value)
    (requestBodySchema : Option ObjectSchema) (eventBody : Option String) :
    Sum APIGResult Value :=
  match parseJson (eventBody.getD "") with
  | none => Sum.inl { statusCode := 422, body := Body.str "" }
  | some body =>
    match requestBodySchema with
    | none => Sum.inr body
    | some bodySchema =>
      match joiValidate bodySchema requestValidationOptions body with
      | Except.error msg => Sum.inl { statusCode := 400, body := Body.str msg }
      | Except.ok v => Sum.inr v

/-- APIGLambdaHandler.parseAndValidateResponse. -/
def parseAndValidateResponse (responseBodySchema : Option ObjectSchema)
    (body : Value) : Sum APIGResult Value :=
  match responseBodySchema with
  | none => Sum.inr body
  | some responseSchema =>
    match joiValidate responseSchema responseValidationOptions body with
    | Except.error _ =>
      Sum.inl { statusCode := 500, body := Body.str "Internal error" }
    | Except.ok v => Sum.inr v

/-- Control flow of APIGLambdaHandler.handler.  Each stage is a computation
that either returns a value or throws, written Except.error ().  The call to
getContainerInjected is the one stage of the method body that is not wrapped
in a try/catch, so its exception is re-raised rather than converted. -/
def handlerRun {CInj RInj : Type}
    (parseReq : Except Unit (Sum APIGResult Value))
    (getContainer : Except Unit CInj)
    (getReqInjected : CInj → Value → Except Unit RInj)
    (handleReq : CInj → RInj → Value → Except Unit HandleResult)
    (parseResp : Value → Except Unit (Sum APIGResult Value)) :
    Except Unit APIGResult :=
  match parseReq with
  | Except.error _ => Except.ok INTERNAL_ERROR
  | Except.ok (Sum.inl errorResponse) => Except.ok errorResponse
  | Except.ok (Sum.inr request) =>
    match getContainer with
    | Except.error e => Except.error e
    | Except.ok containerInjected =>
      match getReqInjected containerInjected request with
      | Except.error _ => Except.ok INTERNAL_ERROR
      | Except.ok requestInjected =>
        match handleReq containerInjected requestInjected request with
        | Except.error _ => Except.ok INTERNAL_ERROR
        | Except.ok result =>
          if isError result then
            Except.ok { statusCode := result.statusCode
                        body := Body.json (jsErrorStringify result) }
          else
            match parseResp (result.body.getD Value.null) with
            | Except.error _ => Except.ok INTERNAL_ERROR
            | Except.ok (Sum.inl errorResponse) => Except.ok errorResponse
            | Except.ok (Sum.inr response) =>
              Except.ok { statusCode := result.statusCode
                          body := Body.json response }

/-- The concrete pipeline: handlerRun instantiated with the concrete
parse-and-validate stages, which themselves return rather than throw. -/
def runHandler {CInj RInj : Type} (parseJson : String → Option Value)
    (requestBodySchema responseBodySchema : Option ObjectSchema)
    (getContainer : Except Unit CInj)
    (getReqInjected : CInj → Value → Except Unit RInj)
    (handleReq : CInj → RInj → Value → Except Unit HandleResult)
    (eventBody : Option String) : Except Unit APIGResult :=
  handlerRun
    (Except.ok (parseAndValidateRequest parseJson requestBodySchema eventBody))
    getContainer getReqInjected handleReq
    (fun b => Except.ok (parseAndValidateResponse responseBodySchema b))

/-- The private containerInjected field of an Injector: undefined until the
build step has run. -/
structure InjectorState (CInj : Type) where
  containerInjected : Option CInj

/-- A freshly constructed Injector (the constructor body is empty). -/
def Injector.initialState (CInj : Type) : InjectorState CInj :=
  { containerInjected := none }

/-- The build step of the Injector: it stores the result of
buildContainerInjected in the private field. -/
def Injector.build {CInj : Type} (built : CInj) (_s : InjectorState CInj) :
    InjectorState CInj :=
  { containerInjected := some built }

/-- Injector.getContainerInjected: throws when the private field is still
undefined, otherwise returns the stored object without rebuilding it. -/
def Injector.getContainerInjected {CInj : Type} (s : InjectorState CInj) :
    Except String CInj :=
  match s.containerInjected with
  | none =>
    Except.error "Container injected undefined. Must call build() before using."
  | some c => Except.ok c

/-- The container access stage of the handler: a getContainerInjected failure
is a thrown exception at that call site. -/
def stageOfInjector {CInj : Type} (s : InjectorState CInj) : Except Unit CInj :=
  match Injector.getContainerInjected s with
  | Except.error _ => Except.error ()
  | Except.ok c => Except.ok c

/-- A token on a route path: the fields the graph assembly reads. -/
structure Token where
  address : String
  chainId : Nat
  symbol : String
  decimals : Nat

/-- A pool on a route path: the fields the graph assembly reads. -/
structure Pool where
  token0 : Token
  token1 : Token
  fee : Nat
  liquidity : Nat
  sqrtRatioX96 : Nat
  tickCurrent : Int

/-- One routeAmount of a swap route: a token path interleaved with pools,
with the amount and quote quotients for its share of the split trade. -/
structure RouteAmount where
  tokenPath : List Token
  pools : List Pool
  amount : Nat
  quote : Nat

/-- A node of the response route graph. -/
structure NodeInRoute where
  type : String
  id : String
  chainId : Nat
  symbol : String
  decimals : String

/-- An edge of the response route graph. -/
structure EdgeInRoute where
  type : String
  id : String
  inId : String
  outId : String
  fee : String
  liquidity : String
  sqrtRatioX96 : String
  tickCurrent : String
  amountIn : Option Nat
  amountOut : Option Nat

/-- The accumulated state of the graph assembly loop: the seen-set of token
addresses and the node and edge lists. -/
structure GraphState where
  tokenSet : List String
  nodes : List NodeInRoute
  edges : List EdgeInRoute

/-- The guarded node push of the assembly: a node is emitted only for a
first-seen address.  decimalsSrc is the token whose decimals field the source
reads for the node, which at the inner call site is prevToken rather than the
token being pushed. -/
def addTokenNode (st : GraphState) (tok : Token) (decimalsSrc : Token) :
    GraphState :=
  if st.tokenSet.contains tok.address then st
  else
    { st with
      tokenSet := tok.address :: st.tokenSet
      nodes := st.nodes ++
        [{ type := "token", id := tok.address, chainId := tok.chainId,
           symbol := tok.symbol, decimals := toString decimalsSrc.decimals }] }

/-- The edge pushed for one hop.  getPoolAddress abstracts the external
poolProvider.getPoolAddress collaborator. -/
def mkEdge (getPoolAddress : Pool → String) (prevToken nextToken : Token)
    (nextPool : Pool) (edgeAmountIn edgeAmountOut : Option Nat) : EdgeInRoute :=
  { type := "v3-pool", id := getPoolAddress nextPool,
    inId := prevToken.address, outId := nextToken.address,
    fee := toString nextPool.fee, liquidity := toString nextPool.liquidity,
    sqrtRatioX96 := toString nextPool.sqrtRatioX96,
    tickCurrent := toString nextPool.tickCurrent,
    amountIn := edgeAmountIn, amountOut := edgeAmountOut }

/-- The unconditional edge push of the assembly. -/
def pushEdge (st : GraphState) (e : EdgeInRoute) : GraphState :=
  { st with edges := st.edges ++ [e] }

/-- The inner hop loop of the assembly: i is the loop index, n the pools
length of this path, hops the remaining pairs of pools[i] and tokenPath[i+1],
and prevToken the token tokenPath[i]. -/
def processHops (getPoolAddress : Pool → String) (tradeType : String)
    (amount quote : Nat) (n : Nat) (i : Nat) (prevToken : Token)
    (hops : List (Pool × Token)) (st : GraphState) : GraphState :=
  match hops with
  | [] => st
  | (nextPool, nextToken) :: rest =>
    processHops getPoolAddress tradeType amount quote n (i + 1) nextToken rest
      (pushEdge (addTokenNode st nextToken prevToken)
        (mkEdge getPoolAddress prevToken nextToken nextPool
          (if i = 0 then some (if tradeType == "exactIn" then amount else quote)
           else none)
          (if i = n - 1 then some (if tradeType == "exactIn" then quote else amount)
           else none)))

/-- One iteration of the outer routeAmounts loop: push the path head token,
then walk the hops. -/
def processPath (getPoolAddress : Pool → String) (tradeType : String)
    (ra : RouteAmount) (st : GraphState) : GraphState :=
  match ra.tokenPath with
  | [] => st
  | t0 :: rest =>
    processHops getPoolAddress tradeType ra.amount ra.quote ra.pools.length 0 t0
      (ra.pools.zip rest) (addTokenNode st t0 t0)

/-- The route graph assembly over all routeAmounts of the swap route. -/
def assembleRouteGraph (getPoolAddress : Pool → String) (tradeType : String)
    (routeAmounts : List RouteAmount) : GraphState :=
  routeAmounts.foldl (fun st ra => processPath getPoolAddress tradeType ra st)
    { tokenSet := [], nodes := [], edges := [] }

/-- The edges contributed by one run of the hop loop, as a pure function: the
edge pushes of the assembly do not consult the token seen-set. -/
def hopEdges (getPoolAddress : Pool → String) (tradeType : String)
    (amount quote : Nat) (n : Nat) (i : Nat) (prevToken : Token)
    (hops : List (Pool × Token)) : List EdgeInRoute :=
  match hops with
  | [] => []
  | (nextPool, nextToken) :: rest =>
    mkEdge getPoolAddress prevToken nextToken nextPool
        (if i = 0 then some (if tradeType == "exactIn" then amount else quote)
         else none)
        (if i = n - 1 then some (if tradeType == "exactIn" then quote else amount)
         else none) ::
      hopEdges getPoolAddress tradeType amount quote n (i + 1) nextToken rest

/-- The edges contributed by one path. -/
def pathEdges (getPoolAddress : Pool → String) (tradeType : String)
    (ra : RouteAmount) : List EdgeInRoute :=
  match ra.tokenPath with
  | [] => []
  | t0 :: rest =>
    hopEdges getPoolAddress tradeType ra.amount ra.quote ra.pools.length 0 t0
      (ra.pools.zip rest)

/-- The concatenation of the per-path edge lists, in path order. -/
def pathEdgesAll (getPoolAddress : Pool → String) (tradeType : String) :
    List RouteAmount → List EdgeInRoute
  | [] => []
  | ra :: rest =>
    pathEdges getPoolAddress tradeType ra ++ pathEdgesAll getPoolAddress tradeType rest

/-- The invariant the assembly maintains: emitted node ids are pairwise
distinct and every emitted node id is recorded in the seen-set. -/
def NodesInv (st : GraphState) : Prop :=
  (st.nodes.map (fun n => n.id)).Nodup ∧ ∀ n ∈ st.nodes, n.id ∈ st.tokenSet

/-- Concrete tokens, pools and paths used to evaluate the definitions. -/
def tokA : Token := { address := "0xA", chainId := 1, symbol := "A", decimals := 18 }

def tokB : Token := { address := "0xB", chainId := 1, symbol := "B", decimals := 6 }

def tokC : Token := { address := "0xC", chainId := 1, symbol := "C", decimals := 8 }

def poolAB : Pool :=
  { token0 := tokA, token1 := tokB, fee := 3000, liquidity := 1000,
    sqrtRatioX96 := 79228, tickCurrent := 0 }

def poolBC : Pool :=
  { token0 := tokB, token1 := tokC, fee := 500, liquidity := 2000,
    sqrtRatioX96 := 79229, tickCurrent := 5 }

def gpaFix : Pool → String := fun p => p.token0.address ++ p.token1.address

def pathAB : RouteAmount :=
  { tokenPath := [tokA, tokB], pools := [poolAB], amount := 50, quote := 47 }

def pathABC : RouteAmount :=
  { tokenPath := [tokA, tokB, tokC], pools := [poolAB, poolBC],
    amount := 50, quote := 47 }

/-- A concrete stand-in for JSON.parse used to evaluate the pipeline: two
parseable bodies, everything else a parse failure. -/
def pjFixture : String → Option Value := fun s =>
  if s == "okbody" then
    some (Value.obj [("a", Value.str "x"), ("extra", Value.str "y")])
  else if s == "noabody" then some (Value.obj [("extra", Value.str "y")])
  else none

/-- A concrete schema declaring one required string field named a. -/
def schemaA : ObjectSchema :=
  { keys := [("a",
      { required := true
        check := fun v => match v with | Value.str _ => true | _ => false })] }

/-- A business logic fixture returning a success result whose body fails
schemaA. -/
def hreqFixBad : Unit → Unit → Value → Except Unit HandleResult := fun _ _ _ =>
  Except.ok { statusCode := 200, body := some (Value.obj [("b", Value.num 1)]),
              errorCode := none, detail := none }

/-- A business logic fixture returning a success result whose body passes
schemaA and carries one undeclared field. -/
def hreqFixA : Unit → Unit → Value → Except Unit HandleResult := fun _ _ _ =>
  Except.ok { statusCode := 200,
              body := some (Value.obj [("a", Value.str "x"), ("secret", Value.str "z")]),
              errorCode := none, detail := none }

/-- A typed business ErrorResponse fixture. -/
def errFixResult : HandleResult :=
  { statusCode := 404, body := none, errorCode := some "NO_ROUTE",
    detail := some "No route found" }

/-- A business logic fixture returning the ErrorResponse fixture. -/
def hreqFixErr : Unit → Unit → Value → Except Unit HandleResult := fun _ _ _ =>
  Except.ok errFixResult

/-- A string beginning with a quote character is nonempty. -/
theorem quoted_ne_empty (k suffix : String) : ("\"" ++ k ++ suffix) ≠ "" := by
  intro h
  have hl := congrArg String.length h
  rw [String.length_append, String.length_append] at hl
  have h1 : ("\"" : String).length = 1 := rfl
  have h0 : ("" : String).length = 0 := rfl
  rw [h1, h0] at hl
  omega

/-- Every field validation error message is nonempty. -/
theorem checkFields_error_ne_empty (fields : List (String × Value)) :
    ∀ (keys : List (String × FieldSpec)) (msg : String),
      checkFields fields keys = some msg → msg ≠ "" := by
  intro keys
  induction keys with
  | nil => intro msg h; simp [checkFields] at h
  | cons kv rest ih =>
    intro msg h
    obtain ⟨k, fs⟩ := kv
    rw [checkFields] at h
    cases hl : lookupField fields k with
    | none =>
      rw [hl] at h
      by_cases hr : fs.required = true
      · simp only [hr, if_true] at h
        injection h with h
        exact h ▸ quoted_ne_empty k "\" is required"
      · simp only [Bool.not_eq_true] at hr
        simp only [hr, Bool.false_eq_true, if_false] at h
        exact ih msg h
    | some v =>
      rw [hl] at h
      by_cases hcv : fs.check v = true
      · simp only [hcv, if_true] at h
        exact ih msg h
      · simp only [Bool.not_eq_true] at hcv
        simp only [hcv, Bool.false_eq_true, if_false] at h
        injection h with h
        exact h ▸ quoted_ne_empty k "\" is invalid"

/-- Every request validation error message surfaced with the 400 is
nonempty. -/
theorem joiValidate_request_error_ne_empty (s : ObjectSchema) (v : Value)
    (msg : String)
    (h : joiValidate s requestValidationOptions v = Except.error msg) :
    msg ≠ "" := by
  cases v with
  | obj fields =>
    rw [joiValidate] at h
    cases hc : checkFields fields s.keys with
    | some m =>
      rw [hc] at h
      injection h with h
      exact h ▸ checkFields_error_ne_empty fields s.keys m hc
    | none =>
      rw [hc] at h
      simp [requestValidationOptions] at h
  | null =>
    rw [show joiValidate s requestValidationOptions Value.null =
      Except.error "\"value\" must be of type object" from rfl] at h
    injection h with h
    subst h; decide
  | bool b =>
    rw [show joiValidate s requestValidationOptions (Value.bool b) =
      Except.error "\"value\" must be of type object" from rfl] at h
    injection h with h
    subst h; decide
  | num n =>
    rw [show joiValidate s requestValidationOptions (Value.num n) =
      Except.error "\"value\" must be of type object" from rfl] at h
    injection h with h
    subst h; decide
  | str t =>
    rw [show joiValidate s requestValidationOptions (Value.str t) =
      Except.error "\"value\" must be of type object" from rfl] at h
    injection h with h
    subst h; decide
  | arr xs =>
    rw [show joiValidate s requestValidationOptions (Value.arr xs) =
      Except.error "\"value\" must be of type object" from rfl] at h
    injection h with h
    subst h; decide

/-- A successful validation with stripUnknown set returns the input object
restricted to its declared fields. -/
theorem joiValidate_ok_stripped (s : ObjectSchema) (opts : ValidationOptions)
    (hstrip : opts.stripUnknown = true) (fs : List (String × Value)) (v : Value)
    (h : joiValidate s opts (Value.obj fs) = Except.ok v) :
    v = Value.obj (fs.filter (fun kv => declares s kv.1)) := by
  rw [joiValidate] at h
  cases hc : checkFields fs s.keys with
  | some m => rw [hc] at h; simp at h
  | none =>
    rw [hc, hstrip] at h
    simp at h
    exact h.symm

/-- An undeclared key is absent from an object restricted to declared keys. -/
theorem lookupField_filter_declares (s : ObjectSchema)
    (fs : List (String × Value)) (k : String) (hk : declares s k = false) :
    lookupField (fs.filter (fun kv => declares s kv.1)) k = none := by
  have hf : (fs.filter (fun kv => declares s kv.1)).find?
      (fun kv => kv.1 == k) = none := by
    apply List.find?_eq_none.mpr
    intro kv hkv hbeq
    rw [List.mem_filter] at hkv
    have he : kv.1 = k := eq_of_beq hbeq
    have hd := hkv.2
    rw [he, hk] at hd
    exact Bool.false_ne_true hd
  simp [lookupField, hf]

/-- The guarded node push preserves the node uniqueness invariant. -/
theorem nodesInv_addTokenNode (st : GraphState) (tok decimalsSrc : Token)
    (h : NodesInv st) : NodesInv (addTokenNode st tok decimalsSrc) := by
  unfold addTokenNode
  by_cases hc : st.tokenSet.contains tok.address = true
  · rw [if_pos hc]; exact h
  · rw [if_neg hc]
    have hnot : tok.address ∉ st.tokenSet := by simpa using hc
    obtain ⟨hnd, hsub⟩ := h
    constructor
    · simp only [List.map_append, List.map_cons, List.map_nil]
      rw [List.nodup_append]
      refine ⟨hnd, List.nodup_singleton _, ?_⟩
      intro x hx hx2
      rw [List.mem_singleton] at hx2
      subst hx2
      rw [List.mem_map] at hx
      obtain ⟨n, hn, hid⟩ := hx
      exact hnot (hid ▸ hsub n hn)
    · intro n hn
      rw [List.mem_append] at hn
      cases hn with
      | inl hn => exact List.mem_cons_of_mem _ (hsub n hn)
      | inr hn =>
        rw [List.mem_singleton] at hn
        subst hn
        exact List.mem_cons_self _ _

/-- The hop loop preserves the node uniqueness invariant. -/
theorem nodesInv_processHops (gpa : Pool → String) (tt : String)
    (a q n : Nat) :
    ∀ (hops : List (Pool × Token)) (i : Nat) (prev : Token) (st : GraphState),
      NodesInv st → NodesInv (processHops gpa tt a q n i prev hops st) := by
  intro hops
  induction hops with
  | nil => intro i prev st h; exact h
  | cons hd rest ih =>
    intro i prev st h
    obtain ⟨nextPool, nextToken⟩ := hd
    rw [processHops]
    apply ih
    exact nodesInv_addTokenNode st nextToken prev h

/-- One outer loop iteration preserves the node uniqueness invariant. -/
theorem nodesInv_processPath (gpa : Pool → String) (tt : String)
    (ra : RouteAmount) (st : GraphState) (h : NodesInv st) :
    NodesInv (processPath gpa tt ra st) := by
  rw [processPath]
  cases ra.tokenPath with
  | nil => exact h
  | cons t0 rest =>
    exact nodesInv_processHops gpa tt ra.amount ra.quote ra.pools.length _ 0 t0 _
      (nodesInv_addTokenNode st t0 t0 h)

/-- The whole assembly fold preserves the node uniqueness invariant. -/
theorem nodesInv_foldl (gpa : Pool → String) (tt : String) :
    ∀ (ras : List RouteAmount) (st : GraphState), NodesInv st →
      NodesInv (ras.foldl (fun st ra => processPath gpa tt ra st) st) := by
  intro ras
  induction ras with
  | nil => intro st h; exact h
  | cons ra rest ih =>
    intro st h
    rw [List.foldl_cons]
    exact ih _ (nodesInv_processPath gpa tt ra st h)

/-- The guarded node push leaves the edge list unchanged. -/
theorem addTokenNode_edges (st : GraphState) (tok decimalsSrc : Token) :
    (addTokenNode st tok decimalsSrc).edges = st.edges := by
  unfold addTokenNode
  split <;> rfl

/-- The hop loop appends exactly the pure per-hop edge list. -/
theorem processHops_edges (gpa : Pool → String) (tt : String) (a q n : Nat) :
    ∀ (hops : List (Pool × Token)) (i : Nat) (prev : Token) (st : GraphState),
      (processHops gpa tt a q n i prev hops st).edges =
        st.edges ++ hopEdges gpa tt a q n i prev hops := by
  intro hops
  induction hops with
  | nil => intro i prev st; simp [processHops, hopEdges]
  | cons hd rest ih =>
    intro i prev st
    obtain ⟨p, tk⟩ := hd
    rw [processHops, hopEdges, ih]
    simp [pushEdge, addTokenNode_edges]

/-- One outer loop iteration appends exactly the per-path edge list. -/
theorem processPath_edges (gpa : Pool → String) (tt : String)
    (ra : RouteAmount) (st : GraphState) :
    (processPath gpa tt ra st).edges = st.edges ++ pathEdges gpa tt ra := by
  rw [processPath, pathEdges]
  cases ra.tokenPath with
  | nil => simp
  | cons t0 rest => rw [processHops_edges, addTokenNode_edges]

/-- The assembly fold appends the per-path edge lists in path order. -/
theorem foldl_processPath_edges (gpa : Pool → String) (tt : String) :
    ∀ (ras : List RouteAmount) (st : GraphState),
      (ras.foldl (fun st ra => processPath gpa tt ra st) st).edges =
        st.edges ++ pathEdgesAll gpa tt ras := by
  intro ras
  induction ras with
  | nil => intro st; simp [pathEdgesAll]
  | cons ra rest ih =>
    intro st
    rw [List.foldl_cons, ih, pathEdgesAll, processPath_edges, List.append_assoc]

/-- The pure per-hop edge list has one edge per hop. -/
theorem hopEdges_length (gpa : Pool → String) (tt : String) (a q n : Nat) :
    ∀ (hops : List (Pool × Token)) (i : Nat) (prev : Token),
      (hopEdges gpa tt a q n i prev hops).length = hops.length := by
  intro hops
  induction hops with
  | nil => intro i prev; rfl
  | cons hd rest ih =>
    intro i prev
    obtain ⟨p, tk⟩ := hd
    rw [hopEdges]
    simp [ih]

/-- Boundary amounts of the pure per-hop edge list: the edge at loop index
i + j carries an amount-in exactly at index 0 and an amount-out exactly at
index n - 1. -/
theorem hopEdges_get (gpa : Pool → String) (tt : String) (a q n : Nat) :
    ∀ (hops : List (Pool × Token)) (i : Nat) (prev : Token) (j : Nat)
      (hj : j < (hopEdges gpa tt a q n i prev hops).length),
      ((hopEdges gpa tt a q n i prev hops).get ⟨j, hj⟩).amountIn =
        (if i + j = 0 then some (if tt == "exactIn" then a else q) else none) ∧
      ((hopEdges gpa tt a q n i prev hops).get ⟨j, hj⟩).amountOut =
        (if i + j = n - 1 then some (if tt == "exactIn" then q else a) else none) := by
  intro hops
  induction hops with
  | nil => intro i prev j hj; simp [hopEdges] at hj
  | cons hd rest ih =>
    intro i prev j hj
    obtain ⟨p, tk⟩ := hd
    cases j with
    | zero => constructor <;> simp [hopEdges, mkEdge]
    | succ j =>
      have hj2 : j < (hopEdges gpa tt a q n (i + 1) tk rest).length := by
        have hlen := hj
        rw [hopEdges] at hlen
        simpa using hlen
      have hrec := ih (i + 1) tk j hj2
      have harith : i + 1 + j = i + (j + 1) := by omega
      rw [harith] at hrec
      exact hrec

/-- Claim C3: for every list of route paths given to the route-graph
assembly, each token address appears as a node in the returned node list at
most once, no matter how many paths or hops reference that token. -/
theorem route_graph_token_nodes_unique (gpa : Pool → String) (tt : String)
    (ras : List RouteAmount) :
    ((assembleRouteGraph gpa tt ras).nodes.map (fun n => n.id)).Nodup ∧
    ∀ addr : String,
      ((assembleRouteGraph gpa tt ras).nodes.map (fun n => n.id)).count addr ≤ 1 := by
  have h : NodesInv (assembleRouteGraph gpa tt ras) := by
    rw [assembleRouteGraph]
    apply nodesInv_foldl
    exact ⟨List.nodup_nil, fun n hn => absurd hn (List.not_mem_nil n)⟩
  exact ⟨h.1, fun addr => List.nodup_iff_count_le_one.mp h.1 addr⟩

/-- Claim C4: for every path, only the first hop edge carries an amount-in
(the path's amount when the trade type is exactIn, else the path's quote) and
only the last hop edge carries an amount-out (the swapped rule); interior
hop edges carry neither, and a single-hop path's one edge carries both.  The
assembled edge list is the concatenation of the per-path edge lists. -/
theorem route_graph_edge_boundary_amounts (gpa : Pool → String) (tt : String)
    (ras : List RouteAmount) :
    (assembleRouteGraph gpa tt ras).edges = pathEdgesAll gpa tt ras ∧
    ∀ ra ∈ ras, ra.tokenPath.length = ra.pools.length + 1 →
      ∀ (j : Nat) (hj : j < (pathEdges gpa tt ra).length),
        ((pathEdges gpa tt ra).get ⟨j, hj⟩).amountIn =
          (if j = 0 then some (if tt == "exactIn" then ra.amount else ra.quote)
           else none) ∧
        ((pathEdges gpa tt ra).get ⟨j, hj⟩).amountOut =
          (if j = ra.pools.length - 1
           then some (if tt == "exactIn" then ra.quote else ra.amount)
           else none) := by
  constructor
  · rw [assembleRouteGraph, foldl_processPath_edges]
    rfl
  · intro ra _hmem _hwf
    rcases hpath : ra.tokenPath with _ | ⟨t0, rest⟩
    · have e : pathEdges gpa tt ra = [] := by rw [pathEdges, hpath]
      rw [e]
      intro j hj
      exact absurd hj (by simp)
    · have e : pathEdges gpa tt ra =
          hopEdges gpa tt ra.amount ra.quote ra.pools.length 0 t0
            (ra.pools.zip rest) := by rw [pathEdges, hpath]
      rw [e]
      intro j hj
      have h := hopEdges_get gpa tt ra.amount ra.quote ra.pools.length
        (ra.pools.zip rest) 0 t0 j hj
      simpa using h

/-- Witness for claim C4 at the concrete two-hop exact-in path A-B-C with
amount 50 and quote 47: the first edge carries only the amount-in 50, the
last edge only the amount-out 47. -/
theorem route_graph_edge_boundary_amounts_witness :
    ((pathEdges gpaFix "exactIn" pathABC).get ⟨0, by decide⟩).amountIn = some 50 ∧
    ((pathEdges gpaFix "exactIn" pathABC).get ⟨0, by decide⟩).amountOut = none ∧
    ((pathEdges gpaFix "exactIn" pathABC).get ⟨1, by decide⟩).amountIn = none ∧
    ((pathEdges gpaFix "exactIn" pathABC).get ⟨1, by decide⟩).amountOut = some 47 := by
  have h := (route_graph_edge_boundary_amounts gpaFix "exactIn" [pathABC]).2
    pathABC (List.mem_cons_self _ _) rfl
  obtain ⟨h0in, h0out⟩ := h 0 (by decide)
  obtain ⟨h1in, h1out⟩ := h 1 (by decide)
  exact ⟨h0in.trans (by decide), h0out.trans (by decide),
    h1in.trans (by decide), h1out.trans (by decide)⟩

/-- Claim C5, evaluated at a failing input: assembling the single exact-in
path A-B where A has 18 decimals and B has 6 decimals emits the node for B
with decimals "18", copied from the preceding token, although B has decimals
6 and the node for B carries the symbol of B itself. -/
theorem route_graph_node_decimals_from_prev_token :
    ((assembleRouteGraph gpaFix "exactIn" [pathAB]).nodes.map
        (fun n => (n.id, n.symbol, n.decimals))) =
      [("0xA", "A", "18"), ("0xB", "B", "18")] ∧
    toString tokB.decimals = "6" ∧ ("18" : String) ≠ "6" :=
  ⟨rfl, rfl, by decide⟩

/-- Claim C7: getContainerInjected on a fresh Injector fails with an error
rather than silently returning, and after the build step has stored its
result every call returns exactly that stored object; the accessor takes no
builder, so no rebuilding can occur. -/
theorem injector_two_phase_contract (CInj : Type) :
    Injector.getContainerInjected (Injector.initialState CInj) =
      Except.error "Container injected undefined. Must call build() before using." ∧
    ∀ (built : CInj) (s : InjectorState CInj),
      Injector.getContainerInjected (Injector.build built s) = Except.ok built :=
  ⟨rfl, fun _ _ => rfl⟩

/-- Counterexample to claim C1 as stated: with the injector not yet built,
the container access stage throws, and the handler run ends in a propagated
exception rather than any response value. -/
theorem handler_container_exception_uncaught :
    @runHandler Unit Unit pjFixture none none
      (stageOfInjector (Injector.initialState Unit)) (fun _ _ => Except.ok ())
      hreqFixA (some "okbody") = Except.error () := rfl

/-- Claim C1 as amended: an exception thrown at request parse/validate,
request-dependency construction, business-logic invocation or response
validation is caught and converted to the generic internal error, and the
handler returns a response whenever the container access stage does not
throw; an exception of the container access stage propagates uncaught. -/
theorem handler_catches_all_but_container_access {CInj RInj : Type}
    (pr : Except Unit (Sum APIGResult Value)) (gc : Except Unit CInj)
    (gri : CInj → Value → Except Unit RInj)
    (hreq : CInj → RInj → Value → Except Unit HandleResult)
    (prs : Value → Except Unit (Sum APIGResult Value)) :
    ((∃ c, gc = Except.ok c) →
      ∃ res, handlerRun pr gc gri hreq prs = Except.ok res) ∧
    (pr = Except.error () →
      handlerRun pr gc gri hreq prs = Except.ok INTERNAL_ERROR) ∧
    (∀ req c, pr = Except.ok (Sum.inr req) → gc = Except.ok c →
      gri c req = Except.error () →
      handlerRun pr gc gri hreq prs = Except.ok INTERNAL_ERROR) ∧
    (∀ req c ri, pr = Except.ok (Sum.inr req) → gc = Except.ok c →
      gri c req = Except.ok ri → hreq c ri req = Except.error () →
      handlerRun pr gc gri hreq prs = Except.ok INTERNAL_ERROR) ∧
    (∀ req c ri r, pr = Except.ok (Sum.inr req) → gc = Except.ok c →
      gri c req = Except.ok ri → hreq c ri req = Except.ok r →
      isError r = false → prs (r.body.getD Value.null) = Except.error () →
      handlerRun pr gc gri hreq prs = Except.ok INTERNAL_ERROR) ∧
    (∀ req, pr = Except.ok (Sum.inr req) → gc = Except.error () →
      handlerRun pr gc gri hreq prs = Except.error ()) := by
  refine ⟨?_, ?_, ?_, ?_, ?_, ?_⟩
  · rintro ⟨c, rfl⟩
    rcases pr with _ | pr2
    · exact ⟨_, rfl⟩
    rcases pr2 with e | req
    · exact ⟨_, rfl⟩
    rcases hgri : gri c req with _ | ri
    · exact ⟨INTERNAL_ERROR, by simp [handlerRun, hgri]⟩
    rcases hhr : hreq c ri req with _ | r
    · exact ⟨INTERNAL_ERROR, by simp [handlerRun, hgri, hhr]⟩
    rcases hE : isError r with _ | _
    · rcases hps : prs (r.body.getD Value.null) with _ | ps2
      · exact ⟨INTERNAL_ERROR, by simp [handlerRun, hgri, hhr, hE, hps]⟩
      rcases ps2 with e2 | v2
      · exact ⟨e2, by simp [handlerRun, hgri, hhr, hE, hps]⟩
      · exact ⟨{ statusCode := r.statusCode, body := Body.json v2 },
          by simp [handlerRun, hgri, hhr, hE, hps]⟩
    · exact ⟨{ statusCode := r.statusCode, body := Body.json (jsErrorStringify r) },
        by simp [handlerRun, hgri, hhr, hE]⟩
  · intro hpr
    subst hpr
    rfl
  · intro req c hpr hgc hgri
    subst hpr hgc
    simp [handlerRun, hgri]
  · intro req c ri hpr hgc hgri hhr
    subst hpr hgc
    simp [handlerRun, hgri, hhr]
  · intro req c ri r hpr hgc hgri hhr herr hps
    subst hpr hgc
    simp [handlerRun, hgri, hhr, herr, hps]
  · intro req hpr hgc
    subst hpr hgc
    rfl

/-- Witness for the amended claim C1 at concrete stage behaviors: a throwing
request parse stage yields the internal error, an all-succeeding pipeline
yields a response, and a throwing container stage propagates. -/
theorem handler_catches_all_but_container_access_witness :
    @handlerRun Unit Unit (Except.error ()) (Except.ok ())
      (fun _ _ => Except.ok ()) (fun _ _ _ => Except.error ())
      (fun _ => Except.error ()) = Except.ok INTERNAL_ERROR ∧
    (∃ res, @handlerRun Unit Unit
      (Except.ok (Sum.inr Value.null)) (Except.ok ())
      (fun _ _ => Except.ok ()) (fun _ _ _ => Except.error ())
      (fun _ => Except.error ()) = Except.ok res) ∧
    @handlerRun Unit Unit
      (Except.ok (Sum.inr Value.null)) (Except.error ())
      (fun _ _ => Except.ok ()) (fun _ _ _ => Except.error ())
      (fun _ => Except.error ()) = Except.error () :=
  ⟨(handler_catches_all_but_container_access _ _ _ _ _).2.1 rfl,
   (handler_catches_all_but_container_access _ _ _ _ _).1 ⟨(), rfl⟩,
   (handler_catches_all_but_container_access _ _ _ _ _).2.2.2.2.2
     Value.null rfl rfl⟩

/-- Counterexample to claim C2 as stated: the raw body carries the
undeclared field extra, the body passes the request schema, and the parsed
request handed to business logic no longer contains extra. -/
theorem request_unknown_field_dropped :
    pjFixture "okbody" =
      some (Value.obj [("a", Value.str "x"), ("extra", Value.str "y")]) ∧
    declares schemaA "extra" = false ∧
    parseAndValidateRequest pjFixture (some schemaA) (some "okbody") =
      Sum.inr (Value.obj [("a", Value.str "x")]) ∧
    lookupField [("a", Value.str "x")] "extra" = none :=
  ⟨rfl, rfl, rfl, rfl⟩

/-- Claim C2 as amended: for every body that parses to an object and passes
the request schema, the parsed request handed to business logic is the body
restricted to the schema's declared fields, with their original values, and
every undeclared field is absent from it. -/
theorem request_unknown_fields_stripped (parseJson : String → Option Value)
    (s : ObjectSchema) (eventBody : Option String)
    (fs : List (String × Value)) (v : Value)
    (hp : parseJson (eventBody.getD "") = some (Value.obj fs))
    (hv : parseAndValidateRequest parseJson (some s) eventBody = Sum.inr v) :
    v = Value.obj (fs.filter (fun kv => declares s kv.1)) ∧
    ∀ k, declares s k = false →
      lookupField (fs.filter (fun kv => declares s kv.1)) k = none := by
  rw [parseAndValidateRequest, hp] at hv
  have hv2 : (match joiValidate s requestValidationOptions (Value.obj fs) with
      | Except.error msg =>
        (Sum.inl { statusCode := 400, body := Body.str msg } : Sum APIGResult Value)
      | Except.ok w => Sum.inr w) = Sum.inr v := hv
  cases hj : joiValidate s requestValidationOptions (Value.obj fs) with
  | error msg => rw [hj] at hv2; simp at hv2
  | ok w =>
    rw [hj] at hv2
    simp at hv2
    subst hv2
    exact ⟨joiValidate_ok_stripped s requestValidationOptions rfl fs w hj,
      fun k hk => lookupField_filter_declares s fs k hk⟩

/-- Witness for the amended claim C2 at the concrete body with the
undeclared field extra. -/
theorem request_unknown_fields_stripped_witness :
    Value.obj [("a", Value.str "x")] =
      Value.obj ((([("a", Value.str "x"), ("extra", Value.str "y")]) :
        List (String × Value)).filter (fun kv => declares schemaA kv.1)) ∧
    ∀ k, declares schemaA k = false →
      lookupField ((([("a", Value.str "x"), ("extra", Value.str "y")]) :
        List (String × Value)).filter (fun kv => declares schemaA kv.1)) k = none :=
  request_unknown_fields_stripped pjFixture schemaA (some "okbody")
    [("a", Value.str "x"), ("extra", Value.str "y")]
    (Value.obj [("a", Value.str "x")]) rfl rfl

/-- Claim C6: an unparseable body yields 422 with an empty body; a parseable
body failing the request schema yields 400 whose body is the nonempty
validator message; a success payload failing the response schema yields 500
whose body is the fixed string Internal error, independent of the internal
validation message. -/
theorem pipeline_error_status_contract {CInj RInj : Type}
    (parseJson : String → Option Value)
    (reqSchema respSchema : Option ObjectSchema) (gc : Except Unit CInj)
    (gri : CInj → Value → Except Unit RInj)
    (hreq : CInj → RInj → Value → Except Unit HandleResult)
    (eventBody : Option String) :
    (parseJson (eventBody.getD "") = none →
      runHandler parseJson reqSchema respSchema gc gri hreq eventBody =
        Except.ok { statusCode := 422, body := Body.str "" }) ∧
    (∀ b s msg, parseJson (eventBody.getD "") = some b → reqSchema = some s →
      joiValidate s requestValidationOptions b = Except.error msg →
      runHandler parseJson reqSchema respSchema gc gri hreq eventBody =
        Except.ok { statusCode := 400, body := Body.str msg } ∧ msg ≠ "") ∧
    (∀ req c ri r b s,
      parseAndValidateRequest parseJson reqSchema eventBody = Sum.inr req →
      gc = Except.ok c → gri c req = Except.ok ri → hreq c ri req = Except.ok r →
      isError r = false → r.body = some b → respSchema = some s →
      (∃ msg, joiValidate s responseValidationOptions b = Except.error msg) →
      runHandler parseJson reqSchema respSchema gc gri hreq eventBody =
        Except.ok { statusCode := 500, body := Body.str "Internal error" }) := by
  refine ⟨?_, ?_, ?_⟩
  · intro hnone
    simp [runHandler, handlerRun, parseAndValidateRequest, hnone]
  · intro b s msg hp hs hjv
    subst hs
    refine ⟨?_, joiValidate_request_error_ne_empty s b msg hjv⟩
    simp [runHandler, handlerRun, parseAndValidateRequest, hp, hjv]
  · rintro req c ri r b s hpr hgc hgri hhr herr hb hs ⟨msg, hjv⟩
    subst hgc hs
    simp [runHandler, handlerRun, hpr, hgri, hhr, herr, hb,
      parseAndValidateResponse, hjv]

/-- Witness for claim C6 at concrete inputs: an unparseable body, a body
missing the required field a, and a success result whose body fails the
response schema. -/
theorem pipeline_error_status_contract_witness :
    @runHandler Unit Unit pjFixture (some schemaA)
      (some schemaA) (Except.ok ()) (fun _ _ => Except.ok ()) hreqFixBad
      (some "garbage") = Except.ok { statusCode := 422, body := Body.str "" } ∧
    (@runHandler Unit Unit pjFixture (some schemaA)
      (some schemaA) (Except.ok ()) (fun _ _ => Except.ok ()) hreqFixBad
      (some "noabody") =
        Except.ok { statusCode := 400, body := Body.str "\"a\" is required" } ∧
      ("\"a\" is required" : String) ≠ "") ∧
    @runHandler Unit Unit pjFixture (some schemaA)
      (some schemaA) (Except.ok ()) (fun _ _ => Except.ok ()) hreqFixBad
      (some "okbody") =
        Except.ok { statusCode := 500, body := Body.str "Internal error" } := by
  refine ⟨?_, ?_, ?_⟩
  · exact (pipeline_error_status_contract pjFixture (some schemaA) (some schemaA)
      (Except.ok ()) (fun _ _ => Except.ok ()) hreqFixBad (some "garbage")).1 rfl
  · exact (pipeline_error_status_contract pjFixture (some schemaA) (some schemaA)
      (Except.ok ()) (fun _ _ => Except.ok ()) hreqFixBad (some "noabody")).2.1
      (Value.obj [("extra", Value.str "y")]) schemaA "\"a\" is required"
      rfl rfl rfl
  · exact (pipeline_error_status_contract pjFixture (some schemaA) (some schemaA)
      (Except.ok ()) (fun _ _ => Except.ok ()) hreqFixBad (some "okbody")).2.2
      (Value.obj [("a", Value.str "x")]) () ()
      { statusCode := 200, body := some (Value.obj [("b", Value.num 1)]),
        errorCode := none, detail := none }
      (Value.obj [("b", Value.num 1)]) schemaA
      rfl rfl rfl rfl rfl rfl rfl ⟨"\"a\" is required", rfl⟩

/-- Claim C8: for every success result whose body passes the response
schema, the body returned to the caller is the result body restricted to the
declared response fields, so every undeclared field is absent from it. -/
theorem response_unknown_fields_stripped {CInj RInj : Type}
    (parseJson : String → Option Value) (reqSchema : Option ObjectSchema)
    (s : ObjectSchema) (gc : Except Unit CInj)
    (gri : CInj → Value → Except Unit RInj)
    (hreq : CInj → RInj → Value → Except Unit HandleResult)
    (eventBody : Option String) (req : Value) (c : CInj) (ri : RInj)
    (r : HandleResult) (fs : List (String × Value))
    (hpr : parseAndValidateRequest parseJson reqSchema eventBody = Sum.inr req)
    (hgc : gc = Except.ok c) (hgri : gri c req = Except.ok ri)
    (hhr : hreq c ri req = Except.ok r) (herr : isError r = false)
    (hb : r.body = some (Value.obj fs))
    (hok : checkFields fs s.keys = none) :
    runHandler parseJson reqSchema (some s) gc gri hreq eventBody =
      Except.ok { statusCode := r.statusCode,
                  body := Body.json
                    (Value.obj (fs.filter (fun kv => declares s kv.1))) } ∧
    ∀ k, declares s k = false →
      lookupField (fs.filter (fun kv => declares s kv.1)) k = none := by
  subst hgc
  refine ⟨?_, fun k hk => lookupField_filter_declares s fs k hk⟩
  simp [runHandler, handlerRun, hpr, hgri, hhr, herr, hb,
    parseAndValidateResponse, joiValidate, hok, responseValidationOptions]

/-- Witness for claim C8 at a concrete success body carrying the undeclared
field secret. -/
theorem response_unknown_fields_stripped_witness :
    @runHandler Unit Unit pjFixture none (some schemaA)
      (Except.ok ()) (fun _ _ => Except.ok ()) hreqFixA (some "okbody") =
      Except.ok { statusCode := 200,
                  body := Body.json (Value.obj ((([("a", Value.str "x"),
                    ("secret", Value.str "z")]) : List (String × Value)).filter
                      (fun kv => declares schemaA kv.1))) } ∧
    ∀ k, declares schemaA k = false →
      lookupField ((([("a", Value.str "x"), ("secret", Value.str "z")]) :
        List (String × Value)).filter (fun kv => declares schemaA kv.1)) k = none :=
  response_unknown_fields_stripped pjFixture none schemaA (Except.ok ())
    (fun _ _ => Except.ok ()) hreqFixA (some "okbody")
    (Value.obj [("a", Value.str "x"), ("extra", Value.str "y")]) () ()
    { statusCode := 200,
      body := some (Value.obj [("a", Value.str "x"), ("secret", Value.str "z")]),
      errorCode := none, detail := none }
    [("a", Value.str "x"), ("secret", Value.str "z")]
    rfl rfl rfl rfl rfl rfl rfl

/-- Claim C9: a typed business ErrorResponse is passed through verbatim: the
returned response carries exactly its status code and a body holding exactly
its detail and errorCode fields, for every response schema, so response
validation is skipped for it. -/
theorem business_error_passthrough {CInj RInj : Type}
    (parseJson : String → Option Value) (reqSchema : Option ObjectSchema)
    (gc : Except Unit CInj) (gri : CInj → Value → Except Unit RInj)
    (hreq : CInj → RInj → Value → Except Unit HandleResult)
    (eventBody : Option String) (req : Value) (c : CInj) (ri : RInj)
    (r : HandleResult) (ec : String)
    (hpr : parseAndValidateRequest parseJson reqSchema eventBody = Sum.inr req)
    (hgc : gc = Except.ok c) (hgri : gri c req = Except.ok ri)
    (hhr : hreq c ri req = Except.ok r)
    (hsc : r.statusCode = 400 ∨ r.statusCode = 403 ∨ r.statusCode = 404 ∨
      r.statusCode = 408 ∨ r.statusCode = 409 ∨ r.statusCode = 500)
    (hec : r.errorCode = some ec) :
    ∀ respSchema : Option ObjectSchema,
      runHandler parseJson reqSchema respSchema gc gri hreq eventBody =
        Except.ok { statusCode := r.statusCode,
                    body := Body.json (Value.obj (optField "detail" r.detail ++
                      [("errorCode", Value.str ec)])) } := by
  intro respSchema
  subst hgc
  have hE : isError r = true := by
    rcases hsc with h | h | h | h | h | h <;> simp [isError, h]
  simp [runHandler, handlerRun, hpr, hgri, hhr, hE, jsErrorStringify, hec,
    optField]

/-- Witness for claim C9 at the concrete 404 NO_ROUTE business error. -/
theorem business_error_passthrough_witness :
    @runHandler Unit Unit pjFixture none (some schemaA)
      (Except.ok ()) (fun _ _ => Except.ok ()) hreqFixErr (some "okbody") =
      Except.ok { statusCode := 404, body := Body.json (Value.obj
        [("detail", Value.str "No route found"),
         ("errorCode", Value.str "NO_ROUTE")]) } :=
  business_error_passthrough pjFixture none (Except.ok ())
    (fun _ _ => Except.ok ()) hreqFixErr (some "okbody")
    (Value.obj [("a", Value.str "x"), ("extra", Value.str "y")]) () ()
    errFixResult "NO_ROUTE" rfl rfl rfl rfl
    (Or.inr (Or.inr (Or.inl rfl))) rfl (some schemaA)

/-- Claim C10: the pipeline discriminates a business result solely by its
status code: a result is handled as an ErrorResponse exactly when its status
code is neither 200 nor 202 (and then the outcome is the same for every
response schema), and only a result with status 200 or 202 has its body
forwarded to response validation. -/
theorem result_discrimination_by_status {CInj RInj : Type}
    (parseJson : String → Option Value) (reqSchema : Option ObjectSchema)
    (gc : Except Unit CInj) (gri : CInj → Value → Except Unit RInj)
    (hreq : CInj → RInj → Value → Except Unit HandleResult)
    (eventBody : Option String) (req : Value) (c : CInj) (ri : RInj)
    (r : HandleResult)
    (hpr : parseAndValidateRequest parseJson reqSchema eventBody = Sum.inr req)
    (hgc : gc = Except.ok c) (hgri : gri c req = Except.ok ri)
    (hhr : hreq c ri req = Except.ok r) :
    ((r.statusCode ≠ 200 ∧ r.statusCode ≠ 202) →
      ∀ respSchema : Option ObjectSchema,
        runHandler parseJson reqSchema respSchema gc gri hreq eventBody =
          Except.ok { statusCode := r.statusCode,
                      body := Body.json (jsErrorStringify r) }) ∧
    ((r.statusCode = 200 ∨ r.statusCode = 202) →
      ∀ respSchema : Option ObjectSchema,
        runHandler parseJson reqSchema respSchema gc gri hreq eventBody =
          (match parseAndValidateResponse respSchema (r.body.getD Value.null) with
           | Sum.inl e => Except.ok e
           | Sum.inr v =>
             Except.ok { statusCode := r.statusCode, body := Body.json v })) := by
  subst hgc
  constructor
  · intro hne respSchema
    have hE : isError r = true := by
      simp only [isError, Bool.and_eq_true, bne_iff_ne]
      exact hne
    simp [runHandler, handlerRun, hpr, hgri, hhr, hE]
  · intro heq respSchema
    have hE : isError r = false := by
      rcases heq with h | h <;> simp [isError, h]
    simp only [runHandler, handlerRun, hpr, hgri, hhr, hE]
    cases parseAndValidateResponse respSchema (r.body.getD Value.null) <;> simp

/-- Witness for claim C10: the 404 business error is handled as an error
response, and the 200 success result has its body response-validated. -/
theorem result_discrimination_by_status_witness :
    @runHandler Unit Unit pjFixture none (some schemaA)
      (Except.ok ()) (fun _ _ => Except.ok ()) hreqFixErr (some "okbody") =
      Except.ok { statusCode := 404,
                  body := Body.json (jsErrorStringify errFixResult) } ∧
    @runHandler Unit Unit pjFixture none (some schemaA)
      (Except.ok ()) (fun _ _ => Except.ok ()) hreqFixA (some "okbody") =
      Except.ok { statusCode := 200,
                  body := Body.json (Value.obj [("a", Value.str "x")]) } := by
  constructor
  · exact (result_discrimination_by_status pjFixture none (Except.ok ())
      (fun _ _ => Except.ok ()) hreqFixErr (some "okbody")
      (Value.obj [("a", Value.str "x"), ("extra", Value.str "y")]) () ()
      errFixResult rfl rfl rfl rfl).1 ⟨by decide, by decide⟩ (some schemaA)
  · have h := (result_discrimination_by_status pjFixture none (Except.ok ())
      (fun _ _ => Except.ok ()) hreqFixA (some "okbody")
      (Value.obj [("a", Value.str "x"), ("extra", Value.str "y")]) () ()
      { statusCode := 200,
        body := some (Value.obj [("a", Value.str "x"), ("secret", Value.str "z")]),
        errorCode := none, detail := none }
      rfl rfl rfl rfl).2 (Or.inl rfl) (some schemaA)
    exact h.trans (by rfl)
